import Mathlib

/-
Verification development for two modules of an annotation-tooling platform:
the Celery message processor (modules/AIController/backend/messageProcessor.py)
and the Reception web module (modules/Reception/app.py).

Python dicts are embedded as association lists with Python-dict update
semantics (update in place keeps the key's position; a new key is appended
at the end).  Machine-level concerns (threads, sockets) are outside the
embedding; the Celery control plane and result backend are modelled as an
explicit environment that is read but not written during a poll (the
`forget` call releases backend storage and is not observable through any
of the modelled return values).
-/

set_option autoImplicit false

/-- Per-character HTML escaping, matching Python's `html.escape(s)` with
its default `quote=True` (the five replacements `&`, `<`, `>`, `"` and the
apostrophe, chr 39). -/
def escapeChar (c : Char) : String :=
  if c = '&' then "&amp;"
  else if c = '<' then "&lt;"
  else if c = '>' then "&gt;"
  else if c = '"' then "&quot;"
  else if c = Char.ofNat 39 then "&#x27;"
  else String.singleton c

/-- Python `html.escape` (sequential global replacement, `&` first, is
equivalent to one pass over the characters). -/
def htmlEscape (s : String) : String :=
  String.join (s.data.map escapeChar)

namespace celery

def PENDING : String := "PENDING"

def SUCCESS : String := "SUCCESS"

def FAILURE : String := "FAILURE"

def REVOKED : String := "REVOKED"

/-- `AsyncResult.ready()`: the status is terminal. -/
def readyState (s : String) : Bool :=
  s == SUCCESS || s == FAILURE || s == REVOKED

end celery

/-- Lookup in an association list (first binding wins), the embedding of
`d[k]` / `k in d` on a Python dict. -/
def dget? {α : Type} : List (String × α) → String → Option α
  | [], _ => none
  | (k, v) :: rest, key => if k = key then some v else dget? rest key

/-- Update of an association list with Python-dict semantics: `d[k] = v`
replaces the first binding of `k` in place, or appends at the end. -/
def dinsert {α : Type} : List (String × α) → String → α → List (String × α)
  | [], key, v => [(key, v)]
  | (k, w) :: rest, key, v =>
      if k = key then (key, v) :: rest else (k, w) :: dinsert rest key v

/-- `if not k in d: d[k] = []` for a dict of lists/dicts. -/
def ensureKey {α : Type} (d : List (String × List α)) (k : String) :
    List (String × List α) :=
  if (dget? d k).isSome then d else dinsert d k []

/-- Python `sub in s` on strings (substring containment). -/
def strContains (s sub : String) : Bool :=
  decide (sub.data <:+: s.data)

/-- The `meta` field of a Status Record / returned status entry: either a
message dict `{'message': ...}` or the task's raw result payload. -/
inductive MetaInfo where
  | message (s : String)
  | raw (v : String)
deriving DecidableEq

/-- A Status Record as stored in `self.messages[project][taskId]`. -/
structure StatusRecord where
  type : String
  submitted : String
  status : String
  meta : MetaInfo
deriving DecidableEq

/-- A job handle (`AsyncResult` or group result): its id, and the list of
child task ids when it is a group (`children is not None`).  celery's
`AsyncResult.__eq__` compares a handle with a plain string by id, which is
what `id in self.jobs[project]` relies on. -/
structure Job where
  id : String
  children : Option (List String)
deriving DecidableEq

/-- `id in jobs[project]` under `AsyncResult.__eq__`'s string comparison. -/
def containsJobId (js : List Job) (id : String) : Bool :=
  js.any (fun j => j.id == id)

/-- The result-backend's stored metadata for one task
(`backend.get_task_meta(key)`): the status, the failure detail when the
`meta` key is present (already rendered by `str`), and the raw result. -/
structure TaskMsg where
  status : String
  failureDetail : Option String
  result : String
deriving DecidableEq

/-- One active task as reported by a worker: id, registered task name, and
routing key (the owning project). -/
structure WTask where
  id : String
  name : String
  routing_key : String
deriving DecidableEq

/-- One connected worker as seen through `inspect()`: stats key, active
task list, scheduled task list (kept opaque). -/
structure Worker where
  name : String
  active : List WTask
  scheduled : List String
deriving DecidableEq

/-- The Celery environment a poll reads: the result backend (`none`
embeds an empty `get_task_meta` reply) and the control plane's view of the
connected workers (`[]` embeds `stats()` returning nothing).  `now` is the
wall-clock rendering `str(current_time())`; the source's
`datetime.fromtimestamp` branch always raises (`datetime` is not imported
and it reads an out-of-scope variable `t`), so the fallback is taken. -/
structure Env where
  backend : String → Option TaskMsg
  workers : List Worker
  now : String

/-- The MessageProcessor's mutable state: `jobs` (project → job-handle
list), `messages` (project → task id → Status Record), `on_complete`
(task id → optional callback, callbacks kept opaque), and a counter of
`aide_internal_notify` broadcasts sent. -/
structure MPState where
  jobs : List (String × List Job)
  messages : List (String × List (String × StatusRecord))
  onComplete : List (String × Option String)
  broadcasts : Nat
deriving DecidableEq

/-- The record list tracked for a project (empty when the project has no
entry). -/
def trackedRecs (st : MPState) (project : String) :
    List (String × StatusRecord) :=
  (dget? st.messages project).getD []

/-- The Status Record stored for `project`/`key`, if any. -/
def recordAt (st : MPState) (project key : String) : Option StatusRecord :=
  (dget? st.messages project).bind (fun recs => dget? recs key)

/-- The Status Record `register_job` writes for a dispatched task. -/
def sendRecord (now taskType : String) : StatusRecord :=
  { type := taskType, submitted := now, status := celery.PENDING,
    meta := MetaInfo.message "sending job to worker" }

/-- The placeholder Status Record created for a task first observed at a
worker: type inferred from the task name (`train` if the name contains
`train`, else `inference`), `pending`, "job at worker". -/
def workerRecord (now : String) (t : WTask) : StatusRecord :=
  { type := if strContains t.name "train" then "train" else "inference",
    submitted := now, status := celery.PENDING,
    meta := MetaInfo.message "job at worker" }

/-- `register_job(project, job, taskType, on_complete)`: append the job
handle, ensure the project's message dict, send the `add_projects`
broadcast, then create pending Status Records — one per child for a group
job, else one for the job's own id if not already present — and store the
callback under the job id. -/
def register_job (st : MPState) (now project : String) (job : Job)
    (taskType : String) (cb : Option String) : MPState :=
  let jobs0 := ensureKey st.jobs project
  let jobs1 := dinsert jobs0 project (((dget? jobs0 project).getD []) ++ [job])
  let messages0 := ensureKey st.messages project
  let projMsgs := (dget? messages0 project).getD []
  let messages1 :=
    match job.children with
    | some childIds =>
        dinsert messages0 project
          (childIds.foldl (fun m cid => dinsert m cid (sendRecord now taskType)) projMsgs)
    | none =>
        if (dget? projMsgs job.id).isSome then messages0
        else dinsert messages0 project (dinsert projMsgs job.id (sendRecord now taskType))
  { jobs := jobs1, messages := messages1,
    onComplete := dinsert st.onComplete job.id cb,
    broadcasts := st.broadcasts + 1 }

/-- `task_id(project)`: candidate ids `project + "__" + str(uuid.uuid1())`
are drawn from the stream `us` until one is not in `jobs[project]`
(`none` when the finite candidate list is exhausted). -/
def task_id (jobs : List (String × List Job)) (project : String) :
    List String → Option String
  | [] => none
  | u :: rest =>
      let id := project ++ "__" ++ u
      if (dget? jobs project).isNone ||
          !(containsJobId ((dget? jobs project).getD []) id) then some id
      else task_id jobs project rest

/-- `__add_worker_task(task)` (used by `poll_worker_status`): ensure the
project's message dict and add a placeholder record if the task id is not
yet tracked.  The `result.forget()` side effect only touches the backend. -/
def add_worker_task (now : String) (st : MPState) (t : WTask) : MPState :=
  let messages0 := ensureKey st.messages t.routing_key
  let projMsgs := (dget? messages0 t.routing_key).getD []
  if (dget? projMsgs t.id).isSome then { st with messages := messages0 }
  else { st with
         messages := dinsert messages0 t.routing_key
           (dinsert projMsgs t.id (workerRecord now t)) }

/-- All active tasks across every connected worker, in report order. -/
def allActive (ws : List Worker) : List WTask :=
  (ws.map Worker.active).flatten

/-- The state effect of `poll_worker_status(project)`: when any worker
stats came back, run `__add_worker_task` on every active task of every
worker (all projects). -/
def poll_worker_state (st : MPState) (env : Env) : MPState :=
  if env.workers.isEmpty then st
  else (allActive env.workers).foldl (add_worker_task env.now) st

/-- The snapshot `poll_worker_status(project)` returns: per worker (name
with `celery@` stripped), the ids of its active tasks routed to `project`,
and its scheduled tasks verbatim. -/
def workerSnapshot (env : Env) (project : String) :
    List (String × (List String × List String)) :=
  if env.workers.isEmpty then []
  else env.workers.map (fun w =>
    (w.name.replace "celery@" "",
     ((w.active.filter (fun t => t.routing_key == project)).map WTask.id,
      w.scheduled)))

/-- `poll_worker_status(project)`: snapshot plus state effect. -/
def poll_worker_status (st : MPState) (env : Env) (project : String) :
    MPState × List (String × (List String × List String)) :=
  (poll_worker_state st env, workerSnapshot env project)

/-- One returned status entry of `__poll_tasks`. -/
structure StatusOut where
  type : String
  submitted : String
  status : String
  meta : MetaInfo
deriving DecidableEq

/-- The `meta` field `__poll_tasks` computes from a backend reply: on
`FAILURE`, the HTML-escaped failure detail when the `meta` key is present,
else the literal "an unknown error occurred"; otherwise the raw result. -/
def computeInfo (msg : TaskMsg) : MetaInfo :=
  if msg.status = celery.FAILURE then
    match msg.failureDetail with
    | some d => MetaInfo.message (htmlEscape d)
    | none => MetaInfo.message "an unknown error occurred"
  else MetaInfo.raw msg.result

/-- The status entry built for one tracked task, `none` when the backend
reply is empty (`if not len(msg): continue`). -/
def pollEntry (backend : String → Option TaskMsg)
    (p : String × StatusRecord) : Option (String × StatusOut) :=
  match backend p.1 with
  | none => none
  | some msg =>
      some (p.1, { type := p.2.type, submitted := p.2.submitted,
                   status := msg.status, meta := computeInfo msg })

/-- `__poll_tasks(project)`: walk the project's tracked records, skip
tasks without backend metadata, build the status map, and report whether
any polled task is not yet ready. -/
def pollTasks (backend : String → Option TaskMsg)
    (messages : List (String × List (String × StatusRecord)))
    (project : String) : List (String × StatusOut) × Bool :=
  match dget? messages project with
  | none => ([], false)
  | some recs =>
      (recs.filterMap (pollEntry backend),
       recs.any (fun p =>
         match backend p.1 with
         | none => false
         | some msg => !(celery.readyState msg.status)))

/-- `poll_status(project)`: poll the tracked tasks; when none is ongoing,
run one `poll_worker_status` sweep and poll again, returning the recomputed
map. -/
def poll_status (st : MPState) (env : Env) (project : String) :
    MPState × List (String × StatusOut) :=
  let r := pollTasks env.backend st.messages project
  if r.2 then (st, r.1)
  else
    let st2 := poll_worker_state st env
    (st2, (pollTasks env.backend st2.messages project).1)

/-- The per-task body of `pollNow()`: like `__add_worker_task`, but a task
re-added after being lost also gets a job handle appended to
`jobs[project]`. -/
def pollNowTask (now : String) (st : MPState) (t : WTask) : MPState :=
  let messages0 := ensureKey st.messages t.routing_key
  let projMsgs := (dget? messages0 t.routing_key).getD []
  if (dget? projMsgs t.id).isSome then { st with messages := messages0 }
  else
    let messages1 := dinsert messages0 t.routing_key
      (dinsert projMsgs t.id (workerRecord now t))
    let jobs0 := ensureKey st.jobs t.routing_key
    let jobs1 := dinsert jobs0 t.routing_key
      (((dget? jobs0 t.routing_key).getD []) ++ [{ id := t.id, children := none }])
    { st with messages := messages1, jobs := jobs1 }

/-- `pollNow()`: when worker stats came back, sweep every active task of
every worker (all projects). -/
def pollNow (st : MPState) (env : Env) : MPState :=
  if env.workers.isEmpty then st
  else (allActive env.workers).foldl (pollNowTask env.now) st

/-- A record counts as ongoing when its status is neither success nor
failure. -/
def nonTerminal (r : StatusRecord) : Bool :=
  !(r.status == celery.SUCCESS) && !(r.status == celery.FAILURE)

/-- `task_ongoing(project, taskType)`: force a `pollNow()` sweep, then
report whether any tracked record of the project has the given type and a
non-terminal status. -/
def task_ongoing (st : MPState) (env : Env) (project taskType : String) :
    MPState × Bool :=
  let st2 := pollNow st env
  match dget? st2.messages project with
  | none => (st2, false)
  | some recs =>
      (st2, recs.any (fun p => p.2.type == taskType && nonTerminal p.2))

/-- The argument record of the injected login-check function
(`loginCheck(project, admin, superuser, canCreateProjects,
extend_session)`); the Python defaults are all-absent/false. -/
structure LoginArgs where
  project : Option String
  admin : Bool
  superuser : Bool
  canCreateProjects : Bool
  extend_session : Bool
deriving DecidableEq

/-- The default argument values of a bare `self.login_check()` call. -/
def defaultLoginArgs : LoginArgs :=
  { project := none, admin := false, superuser := false,
    canCreateProjects := false, extend_session := false }

/-- The arguments of `self.loginCheck(superuser=True)`. -/
def superuserArgs : LoginArgs :=
  { project := none, admin := false, superuser := true,
    canCreateProjects := false, extend_session := false }

/-- An injected login-check function; `Except.error ()` embeds the call
raising an exception. -/
def LoginCheckFun : Type := LoginArgs → Except Unit Bool

/-- The Reception module's state: the `demoMode` configuration flag and
the installed login-check function (`None` right after construction). -/
structure Reception where
  demoMode : Bool
  login_check : Option LoginCheckFun

/-- `Reception.loginCheck`: forward to `self.login_check`; calling the
still-`None` attribute raises a `TypeError`, embedded as `Except.error`. -/
def Reception.loginCheck (r : Reception) (args : LoginArgs) :
    Except Unit Bool :=
  match r.login_check with
  | none => Except.error ()
  | some f => f args

/-- `addLoginCheckFun`: install the function only when demo mode is off. -/
def addLoginCheckFun (r : Reception) (f : LoginCheckFun) : Reception :=
  if !r.demoMode then { r with login_check := some f } else r

/-- The display name the `/` route interpolates into the landing page:
"Demo mode" under demo mode, else the escaped `username` cookie when the
login check reports logged in, else empty; every exception inside the
`try` (absent function, raising function, absent cookie) falls back to the
empty string. -/
def projects_route (r : Reception) (cookie : Option String) : String :=
  if r.demoMode then "Demo mode"
  else
    match r.login_check with
    | none => ""
    | some f =>
        match f defaultLoginArgs with
        | Except.error _ => ""
        | Except.ok false => ""
        | Except.ok true =>
            match cookie with
            | none => ""
            | some u => htmlEscape u

/-- `/getProjects`: the display name is computed under a `try` that falls
back to empty, but the subsequent `self.loginCheck(superuser=True)` is
outside it, so an exception there propagates out of the route.  `svc` is
the Enrollment & Listing Service's `get_project_info(username,
isSuperUser)`. -/
def get_projects_route (r : Reception) (cookie : Option String)
    (svc : String → Bool → List String) : Except Unit (List String) :=
  let username :=
    match r.login_check with
    | none => ""
    | some f =>
        match f defaultLoginArgs with
        | Except.error _ => ""
        | Except.ok false => ""
        | Except.ok true =>
            match cookie with
            | none => ""
            | some u => htmlEscape u
  match Reception.loginCheck r superuserArgs with
  | Except.error e => Except.error e
  | Except.ok su => Except.ok (svc username su)

/-- An HTTP outcome of the enroll route: a redirect (bottle's `redirect`
raises an `HTTPResponse` that the route catches and returns) or a bare
status code (`abort`). -/
inductive HttpResponse where
  | redirect (location : String)
  | status (code : Nat)
deriving DecidableEq

/-- `/<project>/enroll`: not logged in → redirect to `/`; logged in →
escape the cookie username, read the optional `t` token (escaped when
present), delegate to the service's `enroll_in_project`; service `False` →
401 via `abort`; service `True` → redirect to `/<project>/interface`; any
other exception (login check raising or uninstalled, absent cookie,
service raising) is caught by the outer handler and becomes 400. -/
def enroll_route (r : Reception) (cookie queryT : Option String)
    (enrollFn : String → String → Option String → Except Unit Bool)
    (project : String) : HttpResponse :=
  match Reception.loginCheck r defaultLoginArgs with
  | Except.error _ => HttpResponse.status 400
  | Except.ok false => HttpResponse.redirect "/"
  | Except.ok true =>
      match cookie with
      | none => HttpResponse.status 400
      | some u =>
          let username := htmlEscape u
          let providedToken := queryT.map htmlEscape
          match enrollFn project username providedToken with
          | Except.error _ => HttpResponse.status 400
          | Except.ok false => HttpResponse.status 401
          | Except.ok true =>
              HttpResponse.redirect ("/" ++ project ++ "/interface")

/- Concrete instances used to exercise the theorems below. -/

/-- A backend holding a failed task with an HTML-special failure detail. -/
def wBackend : String → Option TaskMsg := fun k =>
  if k = "task1" then
    some { status := celery.FAILURE, failureDetail := some "<script>",
           result := "" }
  else none

/-- A message table tracking that one task under project `proj`. -/
def wMessages : List (String × List (String × StatusRecord)) :=
  [("proj", [("task1", sendRecord "t0" "train")])]

/-- A state tracking `task1` under `proj`. -/
def wState : MPState :=
  { jobs := [("proj", [{ id := "task1", children := none }])],
    messages := wMessages, onComplete := [], broadcasts := 0 }

/-- An environment with no connected workers and an empty backend. -/
def quietEnv : Env :=
  { backend := fun _ => none, workers := [], now := "t0" }

/-- The Reception state right after construction under demo mode. -/
def demoReception : Reception :=
  { demoMode := true, login_check := none }

/-- A login-check function reporting logged in. -/
def passLoginFun : LoginCheckFun := fun _ => Except.ok true

/-- A login-check function reporting not logged in. -/
def failLoginFun : LoginCheckFun := fun _ => Except.ok false

/-- Reception with demo mode off and a passing login check installed. -/
def okReception : Reception :=
  { demoMode := false, login_check := some passLoginFun }

/-- Reception with demo mode off and a denying login check installed. -/
def deniedReception : Reception :=
  { demoMode := false, login_check := some failLoginFun }

/-- An enrollment service that accepts every enrollment. -/
def enrollAcceptFn : String → String → Option String → Except Unit Bool :=
  fun _ _ _ => Except.ok true

/-- An enrollment service that reports enrollment failure. -/
def enrollRejectFn : String → String → Option String → Except Unit Bool :=
  fun _ _ _ => Except.ok false

/-- A project-listing service returning no projects. -/
def svcEmpty : String → Bool → List String := fun _ _ => []

/-- The status entry `__poll_tasks` produces for `task1` under `wBackend`:
the failure detail is HTML-escaped into the message. -/
def wFailureOut : StatusOut :=
  { type := "train", submitted := "t0", status := celery.FAILURE,
    meta := MetaInfo.message (htmlEscape "<script>") }

/- Association-list lemmas (Python-dict semantics). -/

theorem dget?_dinsert_self {α : Type} (d : List (String × α)) (k : String)
    (v : α) : dget? (dinsert d k v) k = some v := by
  induction d with
  | nil => simp [dinsert, dget?]
  | cons p rest ih =>
      obtain ⟨k0, w⟩ := p
      by_cases h : k0 = k
      · simp [dinsert, h, dget?]
      · simp [dinsert, h, dget?, ih]

theorem dget?_dinsert_ne {α : Type} (d : List (String × α)) (k k2 : String)
    (v : α) (h : k ≠ k2) : dget? (dinsert d k v) k2 = dget? d k2 := by
  induction d with
  | nil => simp [dinsert, dget?, h]
  | cons p rest ih =>
      obtain ⟨k0, w⟩ := p
      by_cases h0 : k0 = k
      · subst h0
        simp [dinsert, dget?, h]
      · simp [dinsert, h0, dget?, ih]

theorem dinsert_fresh_append {α : Type} (d : List (String × α)) (k : String)
    (v : α) (h : dget? d k = none) : dinsert d k v = d ++ [(k, v)] := by
  induction d with
  | nil => simp [dinsert]
  | cons p rest ih =>
      obtain ⟨k0, w⟩ := p
      by_cases h0 : k0 = k
      · subst h0
        simp [dget?] at h
      · simp [dget?, h0] at h
        simp [dinsert, h0, ih h]

theorem dinsert_length {α : Type} (d : List (String × α)) (k : String)
    (v : α) : (dinsert d k v).length =
      if (dget? d k).isSome then d.length else d.length + 1 := by
  induction d with
  | nil => simp [dinsert, dget?]
  | cons p rest ih =>
      obtain ⟨k0, w⟩ := p
      by_cases h0 : k0 = k
      · simp [dinsert, h0, dget?]
      · simp only [dinsert, h0, if_neg, dget?, List.length_cons]
        by_cases h1 : (dget? rest k).isSome
        · simp [h0, h1, ih]
        · simp [h0, h1, ih]

theorem dget?_foldl_dinsert {α : Type} (ids : List String)
    (m : List (String × α)) (v : α) (k : String) :
    dget? (ids.foldl (fun m c => dinsert m c v) m) k =
      if k ∈ ids then some v else dget? m k := by
  induction ids generalizing m with
  | nil => simp
  | cons c rest ih =>
      simp only [List.foldl_cons, ih]
      by_cases hk : k ∈ rest
      · simp [hk]
      · by_cases hc : k = c
        · subst hc
          simp [hk, dget?_dinsert_self]
        · simp [hk, hc, dget?_dinsert_ne m c k v (Ne.symm hc)]

theorem dget?_ensureKey_getD {α : Type} (d : List (String × List α))
    (k : String) : (dget? (ensureKey d k) k).getD [] = (dget? d k).getD [] := by
  unfold ensureKey
  by_cases h : (dget? d k).isSome
  · simp [h]
  · simp only [h, if_neg, Bool.false_eq_true, not_false_eq_true,
      dget?_dinsert_self]
    rw [Option.not_isSome_iff_eq_none] at h
    simp [h]

theorem dget?_ensureKey_of_isSome {α : Type} (d : List (String × List α))
    (rk p : String) (h : (dget? d p).isSome) :
    dget? (ensureKey d rk) p = dget? d p := by
  unfold ensureKey
  by_cases hrk : (dget? d rk).isSome
  · simp [hrk]
  · rw [if_neg (by simp [hrk])]
    by_cases hp : rk = p
    · subst hp
      exact absurd h hrk
    · exact dget?_dinsert_ne d rk p [] hp

theorem recordAt_eq_dget_trackedRecs (st : MPState) (p k : String) :
    recordAt st p k = dget? (trackedRecs st p) k := by
  unfold recordAt trackedRecs
  cases dget? st.messages p <;> simp [dget?]

theorem register_job_messages_group (st : MPState) (now project taskType : String)
    (job : Job) (cb : Option String) (childIds : List String)
    (h : job.children = some childIds) :
    (register_job st now project job taskType cb).messages =
      dinsert (ensureKey st.messages project) project
        (childIds.foldl (fun m cid => dinsert m cid (sendRecord now taskType))
          ((dget? (ensureKey st.messages project) project).getD [])) := by
  simp [register_job, h]

theorem register_job_messages_single (st : MPState) (now project taskType : String)
    (job : Job) (cb : Option String) (h : job.children = none) :
    (register_job st now project job taskType cb).messages =
      (if (dget? ((dget? (ensureKey st.messages project) project).getD []) job.id).isSome
       then ensureKey st.messages project
       else dinsert (ensureKey st.messages project) project
         (dinsert ((dget? (ensureKey st.messages project) project).getD [])
           job.id (sendRecord now taskType))) := by
  simp [register_job, h]

/-- Claim C5: registering a group job creates a pending Status Record of
the given type with meta "sending job to worker" for every child task id,
and a group with two distinct fresh child ids adds exactly two records to
`messages[project]`. -/
theorem claim_C5 (st : MPState) (now project taskType : String) (job : Job)
    (cb : Option String) (childIds : List String)
    (hch : job.children = some childIds) :
    (∀ cid ∈ childIds,
      recordAt (register_job st now project job taskType cb) project cid =
        some (sendRecord now taskType)) ∧
    (∀ c1 c2, childIds = [c1, c2] → c1 ≠ c2 →
      recordAt st project c1 = none → recordAt st project c2 = none →
      (trackedRecs (register_job st now project job taskType cb) project).length =
        (trackedRecs st project).length + 2) := by
  have hm := register_job_messages_group st now project taskType job cb childIds hch
  have hpm : (dget? (ensureKey st.messages project) project).getD [] =
      trackedRecs st project := dget?_ensureKey_getD st.messages project
  have htr : trackedRecs (register_job st now project job taskType cb) project =
      childIds.foldl (fun m cid => dinsert m cid (sendRecord now taskType))
        (trackedRecs st project) := by
    unfold trackedRecs
    rw [hm, dget?_dinsert_self, Option.getD_some, dget?_ensureKey_getD]
  constructor
  · intro cid hcid
    rw [recordAt_eq_dget_trackedRecs, htr, dget?_foldl_dinsert]
    simp [hcid]
  · intro c1 c2 hids hne h1 h2
    subst hids
    rw [recordAt_eq_dget_trackedRecs] at h1 h2
    rw [htr]
    simp only [List.foldl_cons, List.foldl_nil]
    rw [dinsert_length, dget?_dinsert_ne _ _ _ _ hne, h2]
    rw [if_neg (by simp)]
    rw [dinsert_length, h1]
    rw [if_neg (by simp)]

/-- Witness for C5 at a concrete group job with children c1, c2. -/
theorem claim_C5_witness :
    recordAt (register_job ⟨[], [], [], 0⟩ "t0" "proj"
        { id := "g", children := some ["c1", "c2"] } "train" none)
      "proj" "c1" = some (sendRecord "t0" "train") ∧
    (trackedRecs (register_job ⟨[], [], [], 0⟩ "t0" "proj"
        { id := "g", children := some ["c1", "c2"] } "train" none)
      "proj").length = (trackedRecs ⟨[], [], [], 0⟩ "proj").length + 2 := by
  have h := claim_C5 ⟨[], [], [], 0⟩ "t0" "proj" "train"
    { id := "g", children := some ["c1", "c2"] } none ["c1", "c2"] rfl
  exact ⟨h.1 "c1" (by simp), h.2 "c1" "c2" rfl (by decide) (by decide) (by decide)⟩

/-- Claim C6: registering a non-group job creates exactly one record,
appended at the job's own id, when no record with that id exists; when one
already exists, the project's record table is left unchanged. -/
theorem claim_C6 (st : MPState) (now project taskType : String) (job : Job)
    (cb : Option String) (h : job.children = none) :
    (recordAt st project job.id = none →
      trackedRecs (register_job st now project job taskType cb) project =
        trackedRecs st project ++ [(job.id, sendRecord now taskType)]) ∧
    (∀ r, recordAt st project job.id = some r →
      trackedRecs (register_job st now project job taskType cb) project =
        trackedRecs st project) := by
  have hm := register_job_messages_single st now project taskType job cb h
  have hpm : (dget? (ensureKey st.messages project) project).getD [] =
      trackedRecs st project := dget?_ensureKey_getD st.messages project
  constructor
  · intro hnone
    rw [recordAt_eq_dget_trackedRecs] at hnone
    have hcond : (dget? ((dget? (ensureKey st.messages project) project).getD [])
        job.id).isSome = false := by
      rw [hpm, hnone]
      rfl
    unfold trackedRecs
    rw [hm, if_neg (by simp [hcond]), dget?_dinsert_self]
    simp only [Option.getD_some, hpm]
    exact dinsert_fresh_append _ _ _ (by rw [hpm] at hcond; exact Option.not_isSome_iff_eq_none.mp (by simp [hcond]))
  · intro r hsome
    rw [recordAt_eq_dget_trackedRecs] at hsome
    have hcond : (dget? ((dget? (ensureKey st.messages project) project).getD [])
        job.id).isSome = true := by
      rw [hpm, hsome]
      rfl
    unfold trackedRecs
    rw [hm, if_pos (by simp [hcond])]
    exact hpm

/-- Witness for C6: a fresh non-group registration appends one record, and
re-registering an already-tracked id leaves the table unchanged. -/
theorem claim_C6_witness :
    trackedRecs (register_job ⟨[], [], [], 0⟩ "t0" "proj"
        { id := "j1", children := none } "train" none) "proj" =
      trackedRecs ⟨[], [], [], 0⟩ "proj" ++ [("j1", sendRecord "t0" "train")] ∧
    trackedRecs (register_job wState "t1" "proj"
        { id := "task1", children := none } "train" none) "proj" =
      trackedRecs wState "proj" := by
  refine ⟨(claim_C6 ⟨[], [], [], 0⟩ "t0" "proj" "train"
      { id := "j1", children := none } none rfl).1 (by decide), ?_⟩
  exact (claim_C6 wState "t1" "proj" "train" { id := "task1", children := none }
      none rfl).2 (sendRecord "t0" "train") (by decide)

/-- Claim C8: whenever `task_id(project)` returns an identifier, it has the
form `project ++ "__" ++ u` for one of the drawn unique values, and it is
not already present in `jobs[project]` (under `AsyncResult`'s id/string
equality). -/
theorem claim_C8 (jobs : List (String × List Job)) (project : String)
    (us : List String) (id : String)
    (h : task_id jobs project us = some id) :
    (∃ u ∈ us, id = project ++ "__" ++ u) ∧
    containsJobId ((dget? jobs project).getD []) id = false := by
  induction us with
  | nil => simp [task_id] at h
  | cons u rest ih =>
      by_cases hc : ((dget? jobs project).isNone ||
          !(containsJobId ((dget? jobs project).getD [])
            (project ++ "__" ++ u))) = true
      · have hid : id = project ++ "__" ++ u := by
          simp only [task_id] at h
          rw [if_pos hc] at h
          exact (Option.some_inj.mp h).symm
        subst hid
        refine ⟨⟨u, by simp, rfl⟩, ?_⟩
        by_cases h1 : (dget? jobs project).isNone = true
        · rw [Option.isNone_iff_eq_none] at h1
          rw [h1]
          rfl
        · have h1f : (dget? jobs project).isNone = false :=
            Bool.eq_false_iff.mpr h1
          simpa [h1f] using hc
      · have hrest : task_id jobs project rest = some id := by
          simp only [task_id] at h
          rwa [if_neg hc] at h
        obtain ⟨⟨u2, hu2, hid⟩, hcontains⟩ := ih hrest
        exact ⟨⟨u2, by simp [hu2], hid⟩, hcontains⟩

/-- Witness for C8: with `p__u0` already registered, the first candidate is
rejected and the returned id `p__u1` is fresh. -/
theorem claim_C8_witness :
    (∃ u ∈ ["u0", "u1"], "p__u1" = "p" ++ "__" ++ u) ∧
    containsJobId ((dget? [("p", [({ id := "p__u0", children := none } : Job)])]
      "p").getD []) "p__u1" = false :=
  claim_C8 [("p", [{ id := "p__u0", children := none }])] "p" ["u0", "u1"]
    "p__u1" (by decide)

theorem pollEntry_some (backend : String → Option TaskMsg)
    (p : String × StatusRecord) (e : String × StatusOut)
    (h : pollEntry backend p = some e) :
    e.1 = p.1 ∧ ∃ msg, backend p.1 = some msg ∧
      e.2 = { type := p.2.type, submitted := p.2.submitted,
              status := msg.status, meta := computeInfo msg } := by
  unfold pollEntry at h
  rcases hb : backend p.1 with _ | msg
  · rw [hb] at h
    cases h
  · rw [hb] at h
    have he := Option.some_inj.mp h
    subst he
    exact ⟨rfl, msg, rfl, rfl⟩

theorem pollTasks_mem (backend : String → Option TaskMsg)
    (messages : List (String × List (String × StatusRecord)))
    (project : String) (e : String × StatusOut)
    (he : e ∈ (pollTasks backend messages project).1) :
    ∃ p recs, dget? messages project = some recs ∧ p ∈ recs ∧
      pollEntry backend p = some e := by
  rcases hd : dget? messages project with _ | recs
  · simp [pollTasks, hd] at he
  · simp only [pollTasks, hd] at he
    rcases List.mem_filterMap.mp he with ⟨p, hp, hpe⟩
    exact ⟨p, recs, rfl, hp, hpe⟩

theorem pollTasks_mem_isSome (backend : String → Option TaskMsg)
    (messages : List (String × List (String × StatusRecord)))
    (project : String) (e : String × StatusOut)
    (he : e ∈ (pollTasks backend messages project).1) :
    (backend e.1).isSome = true := by
  obtain ⟨p, recs, hd, hp, hpe⟩ := pollTasks_mem backend messages project e he
  obtain ⟨he1, msg, hb, he2⟩ := pollEntry_some backend p e hpe
  rw [he1, hb]
  rfl

/-- Claim C2: every entry `__poll_tasks` returns comes from a non-empty
backend reply, and its meta is the HTML-escaped failure detail on failure
with a detail, the fixed unknown-error message on failure without one, and
the raw result payload otherwise; escaping turns `<script>` into
`&lt;script&gt;`. -/
theorem claim_C2 (backend : String → Option TaskMsg)
    (messages : List (String × List (String × StatusRecord)))
    (project : String) (e : String × StatusOut)
    (he : e ∈ (pollTasks backend messages project).1) :
    htmlEscape "<script>" = "&lt;script&gt;" ∧
    ∃ msg, backend e.1 = some msg ∧ e.2.status = msg.status ∧
      ((msg.status = celery.FAILURE ∧
        ((∃ d, msg.failureDetail = some d ∧
            e.2.meta = MetaInfo.message (htmlEscape d)) ∨
         (msg.failureDetail = none ∧
            e.2.meta = MetaInfo.message "an unknown error occurred"))) ∨
       (msg.status ≠ celery.FAILURE ∧ e.2.meta = MetaInfo.raw msg.result)) := by
  refine ⟨by decide, ?_⟩
  obtain ⟨p, recs, hd, hp, hpe⟩ := pollTasks_mem backend messages project e he
  obtain ⟨he1, msg, hb, he2⟩ := pollEntry_some backend p e hpe
  refine ⟨msg, by rw [he1]; exact hb, by rw [he2], ?_⟩
  rw [he2]
  simp only
  by_cases hf : msg.status = celery.FAILURE
  · left
    refine ⟨hf, ?_⟩
    rcases hfd : msg.failureDetail with _ | d
    · right
      exact ⟨rfl, by unfold computeInfo; rw [if_pos hf, hfd]⟩
    · left
      exact ⟨d, rfl, by unfold computeInfo; rw [if_pos hf, hfd]⟩
  · right
    exact ⟨hf, by unfold computeInfo; rw [if_neg hf]⟩

/-- Witness for C2: the failed task `task1` with detail `<script>` yields
an escaped message. -/
theorem claim_C2_witness :
    htmlEscape "<script>" = "&lt;script&gt;" ∧
    ∃ msg, wBackend "task1" = some msg ∧ wFailureOut.status = msg.status ∧
      ((msg.status = celery.FAILURE ∧
        ((∃ d, msg.failureDetail = some d ∧
            wFailureOut.meta = MetaInfo.message (htmlEscape d)) ∨
         (msg.failureDetail = none ∧
            wFailureOut.meta = MetaInfo.message "an unknown error occurred"))) ∨
       (msg.status ≠ celery.FAILURE ∧
         wFailureOut.meta = MetaInfo.raw msg.result)) :=
  claim_C2 wBackend wMessages "proj" ("task1", wFailureOut) (by decide)

theorem add_worker_task_messages (now : String) (st : MPState) (t : WTask) :
    (add_worker_task now st t).messages =
      (if (dget? ((dget? (ensureKey st.messages t.routing_key)
            t.routing_key).getD []) t.id).isSome
       then ensureKey st.messages t.routing_key
       else dinsert (ensureKey st.messages t.routing_key) t.routing_key
         (dinsert ((dget? (ensureKey st.messages t.routing_key)
            t.routing_key).getD []) t.id (workerRecord now t))) := by
  by_cases hc : (dget? ((dget? (ensureKey st.messages t.routing_key)
      t.routing_key).getD []) t.id).isSome = true
  · simp [add_worker_task, hc]
  · simp [add_worker_task, hc]

theorem add_worker_task_preserves (now : String) (st : MPState) (t : WTask)
    (p k : String) (r : StatusRecord) (h : recordAt st p k = some r) :
    recordAt (add_worker_task now st t) p k = some r := by
  obtain ⟨recs, hd, hk⟩ : ∃ recs, dget? st.messages p = some recs ∧
      dget? recs k = some r := by
    unfold recordAt at h
    rcases hd : dget? st.messages p with _ | recs
    · rw [hd] at h
      cases h
    · rw [hd] at h
      exact ⟨recs, rfl, h⟩
  have hens : dget? (ensureKey st.messages t.routing_key) p = some recs := by
    rw [dget?_ensureKey_of_isSome st.messages t.routing_key p (by simp [hd]), hd]
  unfold recordAt
  rw [add_worker_task_messages]
  by_cases hcond : (dget? ((dget? (ensureKey st.messages t.routing_key)
      t.routing_key).getD []) t.id).isSome = true
  · rw [if_pos hcond, hens]
    exact hk
  · rw [if_neg hcond]
    by_cases hpr : p = t.routing_key
    · subst hpr
      have hproj : (dget? (ensureKey st.messages t.routing_key)
          t.routing_key).getD [] = recs := by
        rw [hens]
        rfl
      rw [hproj] at hcond ⊢
      rw [dget?_dinsert_self]
      have htid : ¬ t.id = k := by
        intro heq
        rw [heq] at hcond
        exact hcond (by simp [hk])
      show dget? (dinsert recs t.id (workerRecord now t)) k = some r
      rw [dget?_dinsert_ne recs t.id k (workerRecord now t) htid]
      exact hk
    · rw [dget?_dinsert_ne _ _ _ _ (fun heq => hpr heq.symm), hens]
      exact hk

theorem foldl_add_worker_preserves (now : String) (ts : List WTask) :
    ∀ (st : MPState) (p k : String) (r : StatusRecord),
      recordAt st p k = some r →
      recordAt (ts.foldl (add_worker_task now) st) p k = some r := by
  induction ts with
  | nil => intro st p k r h; exact h
  | cons a rest ih =>
      intro st p k r h
      simp only [List.foldl_cons]
      exact ih _ p k r (add_worker_task_preserves now st a p k r h)

theorem poll_worker_state_preserves (st : MPState) (env : Env)
    (p k : String) (r : StatusRecord) (h : recordAt st p k = some r) :
    recordAt (poll_worker_state st env) p k = some r := by
  unfold poll_worker_state
  by_cases hw : env.workers.isEmpty = true
  · rw [if_pos hw]
    exact h
  · rw [if_neg hw]
    exact foldl_add_worker_preserves env.now (allActive env.workers) st p k r h

theorem poll_status_spec (st : MPState) (env : Env) (project : String) :
    poll_status st env project =
      (if (pollTasks env.backend st.messages project).2
       then (st, (pollTasks env.backend st.messages project).1)
       else (poll_worker_state st env,
             (pollTasks env.backend (poll_worker_state st env).messages
               project).1)) := by
  by_cases hq : (pollTasks env.backend st.messages project).2 = true
  · simp [poll_status, hq]
  · simp [poll_status, hq]

/-- Claim C7: a tracked task whose backend has no stored metadata is
simply absent from the map `poll_status` returns, and its local Status
Record is left unchanged — the upstream-unavailable case is skipped, not
raised. -/
theorem claim_C7 (st : MPState) (env : Env) (project key : String)
    (r : StatusRecord) (hrec : recordAt st project key = some r)
    (hb : env.backend key = none) :
    (∀ e ∈ (poll_status st env project).2, e.1 ≠ key) ∧
    recordAt (poll_status st env project).1 project key = some r := by
  have hps := poll_status_spec st env project
  by_cases hflag : (pollTasks env.backend st.messages project).2 = true
  · rw [if_pos hflag] at hps
    rw [hps]
    constructor
    · intro e he hk
      have hsome := pollTasks_mem_isSome env.backend st.messages project e he
      rw [hk, hb] at hsome
      cases hsome
    · exact hrec
  · rw [if_neg hflag] at hps
    rw [hps]
    constructor
    · intro e he hk
      have hsome := pollTasks_mem_isSome env.backend
        (poll_worker_state st env).messages project e he
      rw [hk, hb] at hsome
      cases hsome
    · exact poll_worker_state_preserves st env project key r hrec

/-- Witness for C7: with an empty backend, polling leaves `task1`'s record
in place. -/
theorem claim_C7_witness :
    recordAt (poll_status wState quietEnv "proj").1 "proj" "task1" =
      some (sendRecord "t0" "train") :=
  (claim_C7 wState quietEnv "proj" "task1" (sendRecord "t0" "train")
    (by decide) rfl).2

theorem dget?_ensureKey_self {α : Type} (d : List (String × List α))
    (k : String) : dget? (ensureKey d k) k = some ((dget? d k).getD []) := by
  unfold ensureKey
  rcases hd : dget? d k with _ | v
  · rw [if_neg (by simp [hd]), dget?_dinsert_self]
    rfl
  · rw [if_pos (by simp [hd]), hd]
    rfl

theorem pollNowTask_eq (now : String) (st : MPState) (t : WTask) :
    pollNowTask now st t =
      (if (dget? ((dget? (ensureKey st.messages t.routing_key)
            t.routing_key).getD []) t.id).isSome
       then { st with messages := ensureKey st.messages t.routing_key }
       else { st with
              messages := dinsert (ensureKey st.messages t.routing_key)
                t.routing_key
                (dinsert ((dget? (ensureKey st.messages t.routing_key)
                  t.routing_key).getD []) t.id (workerRecord now t)),
              jobs := dinsert (ensureKey st.jobs t.routing_key) t.routing_key
                (((dget? (ensureKey st.jobs t.routing_key)
                  t.routing_key).getD [])
                  ++ [{ id := t.id, children := none }]) }) := by
  by_cases hc : (dget? ((dget? (ensureKey st.messages t.routing_key)
      t.routing_key).getD []) t.id).isSome = true
  · simp [pollNowTask, hc]
  · simp [pollNowTask, hc]

theorem pollNowTask_messages (now : String) (st : MPState) (t : WTask) :
    (pollNowTask now st t).messages = (add_worker_task now st t).messages := by
  by_cases hc : (dget? ((dget? (ensureKey st.messages t.routing_key)
      t.routing_key).getD []) t.id).isSome = true
  · simp [pollNowTask, add_worker_task, hc]
  · simp [pollNowTask, add_worker_task, hc]

theorem recordAt_pollNowTask (now : String) (st : MPState) (t : WTask)
    (p k : String) :
    recordAt (pollNowTask now st t) p k = recordAt (add_worker_task now st t) p k := by
  unfold recordAt
  rw [pollNowTask_messages]

theorem pollNowTask_preserves (now : String) (st : MPState) (t : WTask)
    (p k : String) (r : StatusRecord) (h : recordAt st p k = some r) :
    recordAt (pollNowTask now st t) p k = some r := by
  rw [recordAt_pollNowTask]
  exact add_worker_task_preserves now st t p k r h

theorem add_worker_task_seen_self (now : String) (st : MPState) (t : WTask) :
    (recordAt (add_worker_task now st t) t.routing_key t.id).isSome = true := by
  unfold recordAt
  rw [add_worker_task_messages]
  by_cases hc : (dget? ((dget? (ensureKey st.messages t.routing_key)
      t.routing_key).getD []) t.id).isSome = true
  · rw [if_pos hc]
    rw [dget?_ensureKey_self] at hc ⊢
    exact hc
  · rw [if_neg hc, dget?_dinsert_self]
    show (dget? (dinsert ((dget? (ensureKey st.messages t.routing_key)
      t.routing_key).getD []) t.id (workerRecord now t)) t.id).isSome = true
    rw [dget?_dinsert_self]
    rfl

theorem pollNowTask_seen_self (now : String) (st : MPState) (t : WTask) :
    (recordAt (pollNowTask now st t) t.routing_key t.id).isSome = true := by
  rw [recordAt_pollNowTask]
  exact add_worker_task_seen_self now st t

theorem pollNowTask_of_seen (now : String) (st : MPState) (t : WTask)
    (h : (recordAt st t.routing_key t.id).isSome = true) :
    pollNowTask now st t = st := by
  obtain ⟨recs, hd, hk⟩ : ∃ recs, dget? st.messages t.routing_key = some recs ∧
      (dget? recs t.id).isSome = true := by
    unfold recordAt at h
    rcases hd : dget? st.messages t.routing_key with _ | recs
    · rw [hd] at h
      simp at h
    · rw [hd] at h
      exact ⟨recs, rfl, h⟩
  have hens : ensureKey st.messages t.routing_key = st.messages := by
    unfold ensureKey
    rw [if_pos (by simp [hd])]
  have hcond : (dget? ((dget? (ensureKey st.messages t.routing_key)
      t.routing_key).getD []) t.id).isSome = true := by
    rw [hens, hd]
    exact hk
  rw [pollNowTask_eq, if_pos hcond, hens]

theorem foldl_pollNowTask_mono (now : String) (ts : List WTask) :
    ∀ (st : MPState) (p k : String), (recordAt st p k).isSome = true →
      (recordAt (ts.foldl (pollNowTask now) st) p k).isSome = true := by
  induction ts with
  | nil => intro st p k h; exact h
  | cons a rest ih =>
      intro st p k h
      simp only [List.foldl_cons]
      apply ih
      obtain ⟨r, hr⟩ := Option.isSome_iff_exists.mp h
      rw [pollNowTask_preserves now st a p k r hr]
      rfl

theorem foldl_pollNowTask_seen (now : String) (ts : List WTask) :
    ∀ (st : MPState) (t : WTask), t ∈ ts →
      (recordAt (ts.foldl (pollNowTask now) st) t.routing_key t.id).isSome = true := by
  induction ts with
  | nil => intro st t ht; cases ht
  | cons a rest ih =>
      intro st t ht
      simp only [List.foldl_cons]
      rcases List.mem_cons.mp ht with rfl | hmem
      · exact foldl_pollNowTask_mono now rest (pollNowTask now st t)
          t.routing_key t.id (pollNowTask_seen_self now st t)
      · exact ih _ t hmem

theorem foldl_pollNowTask_fix (now : String) (ts : List WTask) :
    ∀ (st : MPState),
      (∀ t ∈ ts, (recordAt st t.routing_key t.id).isSome = true) →
      ts.foldl (pollNowTask now) st = st := by
  induction ts with
  | nil => intro st _; rfl
  | cons a rest ih =>
      intro st h
      simp only [List.foldl_cons]
      rw [pollNowTask_of_seen now st a (h a (by simp))]
      exact ih st (fun t ht => h t (by simp [ht]))

/-- Claim C10: a second `pollNow()` sweep against an unchanged worker view
is a no-op — every active task was recorded by the first sweep, so no
Status Record and no Job Handle is duplicated. -/
theorem claim_C10 (st : MPState) (env : Env) :
    pollNow (pollNow st env) env = pollNow st env := by
  by_cases hw : env.workers.isEmpty = true
  · simp [pollNow, hw]
  · simp only [pollNow, hw, Bool.false_eq_true, if_false]
    exact foldl_pollNowTask_fix env.now (allActive env.workers) _
      (fun t ht => foldl_pollNowTask_seen env.now (allActive env.workers) st t ht)

/-- Claim C4: `task_ongoing` first runs the `pollNow()` sweep, and then
reports true exactly when some tracked record of the project has the given
type and a status that is neither success nor failure; with no tracked
records it reports false. -/
theorem claim_C4 (st : MPState) (env : Env) (project taskType : String) :
    (task_ongoing st env project taskType).1 = pollNow st env ∧
    ((task_ongoing st env project taskType).2 = true ↔
      ∃ e ∈ trackedRecs (pollNow st env) project,
        e.2.type = taskType ∧ e.2.status ≠ celery.SUCCESS ∧
        e.2.status ≠ celery.FAILURE) ∧
    (trackedRecs (pollNow st env) project = [] →
      (task_ongoing st env project taskType).2 = false) := by
  rcases hd : dget? (pollNow st env).messages project with _ | recs
  · refine ⟨by simp [task_ongoing, hd], ?_, fun _ => by simp [task_ongoing, hd]⟩
    simp [task_ongoing, hd, trackedRecs]
  · refine ⟨by simp [task_ongoing, hd], ?_, ?_⟩
    · have htr : trackedRecs (pollNow st env) project = recs := by
        unfold trackedRecs
        rw [hd]
        rfl
      rw [htr]
      simp [task_ongoing, hd, List.any_eq_true, nonTerminal,
        Bool.and_eq_true, Bool.not_eq_true', and_assoc]
    · intro h0
      have hr : recs = [] := by
        unfold trackedRecs at h0
        rw [hd] at h0
        exact h0
      subst hr
      simp [task_ongoing, hd]

/-- Witness for C4: the first component always equals the sweep result,
and a project with no tracked records reports false. -/
theorem claim_C4_witness :
    (task_ongoing wState quietEnv "proj" "train").1 = pollNow wState quietEnv ∧
    (task_ongoing wState quietEnv "nosuch" "train").2 = false := by
  refine ⟨(claim_C4 wState quietEnv "proj" "train").1, ?_⟩
  exact (claim_C4 wState quietEnv "nosuch" "train").2.2 (by decide)

/-- Claim C1: the enroll route redirects to `/` when the login check
reports not logged in, returns 401 when the Enrollment Service reports
failure, redirects to `/<project>/interface` on success, and answers 400
on every other unexpected failure (uninstalled or raising login check,
missing cookie, raising service). -/
theorem claim_C1 (r : Reception) (cookie queryT : Option String)
    (enrollFn : String → String → Option String → Except Unit Bool)
    (project : String) :
    (r.login_check = none →
      enroll_route r cookie queryT enrollFn project = HttpResponse.status 400) ∧
    (∀ f, r.login_check = some f →
      ((f defaultLoginArgs = Except.ok false →
         enroll_route r cookie queryT enrollFn project =
           HttpResponse.redirect "/") ∧
       (f defaultLoginArgs = Except.error () →
         enroll_route r cookie queryT enrollFn project =
           HttpResponse.status 400) ∧
       (f defaultLoginArgs = Except.ok true → cookie = none →
         enroll_route r cookie queryT enrollFn project =
           HttpResponse.status 400) ∧
       (∀ u, f defaultLoginArgs = Except.ok true → cookie = some u →
         ((enrollFn project (htmlEscape u) (queryT.map htmlEscape) =
             Except.ok false →
            enroll_route r cookie queryT enrollFn project =
              HttpResponse.status 401) ∧
          (enrollFn project (htmlEscape u) (queryT.map htmlEscape) =
             Except.ok true →
            enroll_route r cookie queryT enrollFn project =
              HttpResponse.redirect ("/" ++ project ++ "/interface")) ∧
          (enrollFn project (htmlEscape u) (queryT.map htmlEscape) =
             Except.error () →
            enroll_route r cookie queryT enrollFn project =
              HttpResponse.status 400))))) := by
  constructor
  · intro h
    simp [enroll_route, Reception.loginCheck, h]
  · intro f hf
    refine ⟨?_, ?_, ?_, ?_⟩
    · intro hlc
      simp [enroll_route, Reception.loginCheck, hf, hlc]
    · intro hlc
      simp [enroll_route, Reception.loginCheck, hf, hlc]
    · intro hlc hc
      simp [enroll_route, Reception.loginCheck, hf, hlc, hc]
    · intro u hlc hc
      refine ⟨?_, ?_, ?_⟩ <;> intro he <;>
        simp [enroll_route, Reception.loginCheck, hf, hlc, hc, he]

/-- Witness for C1: the three service-visible outcomes at concrete
requests. -/
theorem claim_C1_witness :
    enroll_route deniedReception (some "alice") none enrollAcceptFn "projA" =
      HttpResponse.redirect "/" ∧
    enroll_route okReception (some "alice") none enrollRejectFn "projA" =
      HttpResponse.status 401 ∧
    enroll_route okReception (some "alice") none enrollAcceptFn "projA" =
      HttpResponse.redirect ("/" ++ "projA" ++ "/interface") := by
  refine ⟨?_, ?_, ?_⟩
  · exact ((claim_C1 deniedReception (some "alice") none enrollAcceptFn
      "projA").2 failLoginFun rfl).1 rfl
  · exact (((claim_C1 okReception (some "alice") none enrollRejectFn
      "projA").2 passLoginFun rfl).2.2.2 "alice" rfl rfl).1 rfl
  · exact (((claim_C1 okReception (some "alice") none enrollAcceptFn
      "projA").2 passLoginFun rfl).2.2.2 "alice" rfl rfl).2.1 rfl

/-- Claim C9: the landing page shows "Demo mode" whenever demo mode is on,
and the empty display name whenever demo mode is off and the login check
is uninstalled, raises, reports not logged in, or the cookie is absent —
never an error page. -/
theorem claim_C9 (r : Reception) (cookie : Option String) :
    (r.demoMode = true → projects_route r cookie = "Demo mode") ∧
    (r.demoMode = false →
      ((r.login_check = none → projects_route r cookie = "") ∧
       (∀ f, r.login_check = some f →
         ((f defaultLoginArgs = Except.error () →
            projects_route r cookie = "") ∧
          (f defaultLoginArgs = Except.ok false →
            projects_route r cookie = "") ∧
          (f defaultLoginArgs = Except.ok true → cookie = none →
            projects_route r cookie = ""))))) := by
  constructor
  · intro hd
    simp [projects_route, hd]
  · intro hd
    constructor
    · intro hn
      simp [projects_route, hd, hn]
    · intro f hf
      refine ⟨?_, ?_, ?_⟩
      · intro he
        simp [projects_route, hd, hf, he]
      · intro he
        simp [projects_route, hd, hf, he]
      · intro he hc
        simp [projects_route, hd, hf, he, hc]

/-- Witness for C9: demo mode shows "Demo mode" despite a cookie; a denied
or cookie-less session shows the empty name. -/
theorem claim_C9_witness :
    projects_route demoReception (some "alice") = "Demo mode" ∧
    projects_route deniedReception (some "alice") = "" ∧
    projects_route okReception none = "" := by
  refine ⟨(claim_C9 demoReception (some "alice")).1 rfl, ?_, ?_⟩
  · exact (((claim_C9 deniedReception (some "alice")).2 rfl).2
      failLoginFun rfl).2.1 rfl
  · exact (((claim_C9 okReception none).2 rfl).2 passLoginFun rfl).2.2 rfl rfl

/-- Counterexample to claim C3: under demo mode the function is indeed
never installed, but a login check performed through the module then
raises instead of evaluating as vacuously true — `/getProjects`'s
superuser check propagates the error rather than succeeding. -/
theorem claim_C3_counterexample :
    (addLoginCheckFun demoReception passLoginFun).login_check = none ∧
    Reception.loginCheck demoReception superuserArgs ≠ Except.ok true ∧
    get_projects_route demoReception (some "alice") svcEmpty =
      Except.error () := by
  refine ⟨rfl, ?_, rfl⟩
  intro h
  exact Except.noConfusion h

/-- Claim C3 (amended): with demo mode active, `addLoginCheckFun` leaves
the module unchanged, so the login-check function stays uninstalled; a
check made through the module then errors (the `None` attribute is
called), and `/getProjects`'s superuser check propagates that error. -/
theorem claim_C3_amended (r : Reception) (f : LoginCheckFun)
    (args : LoginArgs) (hd : r.demoMode = true) :
    addLoginCheckFun r f = r ∧
    (r.login_check = none →
      (Reception.loginCheck r args = Except.error () ∧
       ∀ (cookie : Option String) (svc : String → Bool → List String),
         get_projects_route r cookie svc = Except.error ())) := by
  constructor
  · simp [addLoginCheckFun, hd]
  · intro hn
    constructor
    · simp [Reception.loginCheck, hn]
    · intro cookie svc
      simp [get_projects_route, Reception.loginCheck, hn]

/-- Witness for the amended C3 at the freshly constructed demo-mode
module. -/
theorem claim_C3_amended_witness :
    addLoginCheckFun demoReception passLoginFun = demoReception ∧
    Reception.loginCheck demoReception superuserArgs = Except.error () := by
  have h := claim_C3_amended demoReception passLoginFun superuserArgs rfl
  exact ⟨h.1, (h.2 rfl).1⟩
